import Mathlib

/-!
# Coffee probe: temperature graph, status indicator and sampling loop

A shallow embedding of `src/main.cpp`.  Floating-point values are read as exact
rationals (`ℚ`); C `int` values are unbounded integers (every quantity met here
stays far inside the 32-bit range); `unsigned long` clock values are naturals
whose differences are taken modulo `2 ^ 32`.

The class `CircularBuffer` is declared in `CircularBuffer.h`, whose text is not
available.  The rendering code only reads six observers of the history buffer, so
the renderer is embedded over a record of those six values (`BufferView`); where a
property is about how the buffer evolves, the ring described by the specification
is used (`CircularBuffer` below).
-/

namespace CoffeeProbe

/-! ## Compile-time constants -/

def ITERATIONS : Int := 3
def GRID_COLOR : Nat := 1
/-- Brightest grey level of the display driver (`0xF` in the header of the driver). -/
def SSD1327_WHITE : Nat := 15
def MAJOR_GRID_COLOR : Nat := SSD1327_WHITE - 5
def TEMP_COLOR : Nat := SSD1327_WHITE
def GRAPH_COLOR : Nat := SSD1327_WHITE
def COFFEE_RANGE_MAX : Int := 120
def COFFEE_RANGE_MIN : Int := 95
def GRID_SPACING_X : Int := 40
def GRID_SPACING_Y : Int := 10
def SCREEN_WIDTH : Int := 128
def SCREEN_HEIGHT : Int := 128
def POLLING_DELAY : Nat := 125
def READ_DELAY : Nat := 10
def PULSE_MIN : Int := 10
def PULSE_MAX : Int := 32
def DATA_STORE_INTERVAL : Int := 16
def DATA_STORE_SIZE : Int := SCREEN_WIDTH
def ERROR_TEMP : Int := -100

/-! ## Arithmetic of the target language -/

/-- Conversion of a real value to `int`: the fractional part is discarded
(truncation toward zero). -/
def castInt (q : ℚ) : Int := if 0 ≤ q then ⌊q⌋ else ⌈q⌉

/-- The `round` of the Arduino core: `x >= 0 ? (long)(x + 0.5) : (long)(x - 0.5)`. -/
def round (x : ℚ) : Int := if 0 ≤ x then castInt (x + 1 / 2) else castInt (x - 1 / 2)

/-- The `max` of the Arduino core: `a > b ? a : b`. -/
def cmax (a b : ℚ) : ℚ := if a > b then a else b

/-- The `constrain` of the Arduino core:
`amt < low ? low : (amt > high ? high : amt)`. -/
def constrain (amt low high : Int) : Int :=
  if amt < low then low else if amt > high then high else amt

/-! ## What the renderer reads from the history buffer -/

/-- The values returned by the observers of `storedData` during one render pass. -/
structure BufferView where
  GetCount : Int
  GetStartIndex : Int
  Min : ℚ
  Max : ℚ
  Get : Int → ℚ
  Last : ℚ

/-- The macro `MIN_TEMP`: `max(storedData.Min() - 5, 45)`, the subtraction read as
exact (`MIN_TEMP_binary32` below rounds it). -/
def MIN_TEMP (v : BufferView) : ℚ := cmax (v.Min - 5) 45

/-- The macro `MAX_TEMP`: `max(storedData.Max() + 5, 110)`, the addition read as
exact (`MAX_TEMP_binary32` below rounds it). -/
def MAX_TEMP (v : BufferView) : ℚ := cmax (v.Max + 5) 110

/-! ## Output of the renderer and of the indicator -/

/-- Calls made on the display surface. -/
inductive DrawOp where
  | clearDisplay
  | setTextColor (color : Nat)
  | setTextSize (size : Int)
  | setCursor (x y : Int)
  | println (text : String)
  | drawBitmap (x y : Int) (w h : Int) (color : Nat)
  | drawLine (x0 y0 x1 y1 : Int) (color : Nat)
  | display
  deriving DecidableEq, Repr

/-- Calls made on the one-pixel LED strip. -/
inductive LedOp where
  | setPixelColor (n : Nat) (r g b : Nat)
  | setBrightness (b : Int)
  | show
  deriving DecidableEq, Repr

/-! ## Vertical mapping -/

/-- The function `getYCoordinateForTemperature`, its `float` arithmetic read as
exact. -/
def getYCoordinateForTemperature (v : BufferView) (temperature : ℚ) : Int :=
  let distancePerDegree : ℚ := (SCREEN_HEIGHT : ℚ) / (MAX_TEMP v - MIN_TEMP v)
  let baseLine : ℚ := MAX_TEMP v * distancePerDegree
  castInt (baseLine - temperature * distancePerDegree)

/-! ## Gridlines -/

/-- The first `while` loop of `drawGridlines`: the x of the dotted column drawn
by each iteration.  The loop runs while `x >= 0 && failsafe > 0`; every iteration
subtracts `GRID_SPACING_X` from `x` and one from `failsafe`. -/
def verticalGridXs : Int → Nat → List Int
  | _, 0 => []
  | x, failsafe + 1 =>
    if x ≥ 0 then x :: verticalGridXs (x - GRID_SPACING_X) failsafe else []

/-- The second `while` loop of `drawGridlines`: the pair `(y, temp)` used by each
iteration.  The loop runs while `y < SCREEN_HEIGHT + 10 && failsafe > 0`; every
iteration lowers `temp` by `GRID_SPACING_Y`, recomputes `y` and decrements
`failsafe`. -/
def horizontalGridRows (v : BufferView) : ℚ → Int → Nat → List (Int × ℚ)
  | _, _, 0 => []
  | temp, y, failsafe + 1 =>
    if y < SCREEN_HEIGHT + 10 then
      (y, temp) :: horizontalGridRows v (temp - GRID_SPACING_Y)
        (getYCoordinateForTemperature v (temp - GRID_SPACING_Y)) failsafe
    else []

/-- The value of `index` in `drawGridlines`: the count, replaced by the start
index once the count has reached `DATA_STORE_SIZE`. -/
def gridIndex (v : BufferView) : Int :=
  if v.GetCount ≥ DATA_STORE_SIZE then v.GetStartIndex else v.GetCount

/-- The initial `x` of `drawGridlines`:
`(SCREEN_WIDTH + offset) - index % GRID_SPACING_X`. -/
def gridStartX (v : BufferView) (offset : Int) : Int :=
  (SCREEN_WIDTH + offset) - Int.tmod (gridIndex v) GRID_SPACING_X

/-- The initial `temp` of `drawGridlines`:
`floor(MAX_TEMP / GRID_SPACING_Y) * GRID_SPACING_Y`. -/
def gridStartTemp (v : BufferView) : ℚ :=
  ((⌊MAX_TEMP v / GRID_SPACING_Y⌋ : Int) : ℚ) * GRID_SPACING_Y

/-- The function `drawGridlines`. -/
def drawGridlines (v : BufferView) (offset : Int) : List DrawOp :=
  [DrawOp.setTextColor (GRID_COLOR + 2)]
  ++ (verticalGridXs (gridStartX v offset) SCREEN_WIDTH.toNat).map
      (fun x => DrawOp.drawBitmap x 0 1 SCREEN_HEIGHT GRID_COLOR)
  ++ [DrawOp.setTextSize 1]
  ++ (horizontalGridRows v (gridStartTemp v)
        (getYCoordinateForTemperature v (gridStartTemp v)) SCREEN_HEIGHT.toNat).flatMap
      (fun r => [DrawOp.drawLine 0 r.1 SCREEN_WIDTH r.1 (GRID_COLOR + 1),
                 DrawOp.setCursor 0 (r.1 - 8),
                 DrawOp.println (toString (castInt r.2))])
  ++ [DrawOp.drawLine 0 (getYCoordinateForTemperature v COFFEE_RANGE_MAX)
        (SCREEN_WIDTH + offset) (getYCoordinateForTemperature v COFFEE_RANGE_MAX)
        MAJOR_GRID_COLOR,
      DrawOp.drawLine 0 (getYCoordinateForTemperature v COFFEE_RANGE_MIN)
        (SCREEN_WIDTH + offset) (getYCoordinateForTemperature v COFFEE_RANGE_MIN)
        MAJOR_GRID_COLOR,
      DrawOp.drawLine (SCREEN_WIDTH + offset) 0 (SCREEN_WIDTH + offset) SCREEN_HEIGHT 2]

/-! ## The series -/

/-- The `for` loop of `drawTemperatureGraph`, from the loop variable `i` and the
carried `currentY`: the segments drawn and the final `currentY`.  The first
argument bounds the number of iterations still allowed; the loop itself stops
as soon as `i < storedData.GetCount()` fails. -/
def seriesLoop (v : BufferView) (startX : Int) : Nat → Int → Int → List DrawOp × Int
  | 0, _, currentY => ([], currentY)
  | fuel + 1, i, currentY =>
    if i < v.GetCount then
      let newY := getYCoordinateForTemperature v (v.Get i)
      let rest := seriesLoop v startX fuel (i + 1) newY
      (DrawOp.drawLine (startX + i - 1) currentY (startX + i) newY GRAPH_COLOR :: rest.1,
       rest.2)
    else ([], currentY)

/-- The `startX` of `drawTemperatureGraph`. -/
def graphStartX (v : BufferView) (offset : Int) : Int :=
  SCREEN_WIDTH + offset - v.GetCount - 1

/-- The segments drawn by the `for` loop of `drawTemperatureGraph` and the
`currentY` it leaves; `i` runs from `1` while `i < GetCount`, which takes
`GetCount - 1` iterations. -/
def graphSeries (v : BufferView) (offset : Int) : List DrawOp × Int :=
  seriesLoop v (graphStartX v offset) (v.GetCount - 1).toNat 1
    (getYCoordinateForTemperature v (v.Get 0))

/-- The last `drawLine` of `drawTemperatureGraph`. -/
def graphTerminal (v : BufferView) (offset : Int) : DrawOp :=
  DrawOp.drawLine (graphStartX v offset + v.GetCount) (graphSeries v offset).2
    (graphStartX v offset + v.GetCount + 1)
    (getYCoordinateForTemperature v v.Last) GRAPH_COLOR

/-- The function `drawTemperatureGraph`. -/
def drawTemperatureGraph (v : BufferView) (offset : Int) : List DrawOp :=
  (graphSeries v offset).1 ++ [graphTerminal v offset]

/-! ## The large overlay -/

/-- The label of `drawBouncingText` and its text size. -/
def bouncingLabel (v : BufferView) : String × Int :=
  let currentTemp : Int := round v.Last
  if currentTemp < ERROR_TEMP then ("ERROR", 2) else (toString currentTemp, 5)

/-- The cursor set by `drawBouncingText`; `sinX` and `sinY` are the values of
`sin(millis() / 10000.0f)` and `sin(millis() / 9100.0f)`. -/
def bouncingCursor (v : BufferView) (sinX sinY : ℚ) : Int × Int :=
  let tempString := (bouncingLabel v).1
  let textSize := (bouncingLabel v).2
  let width : Int := (tempString.length : Int) * (6 * textSize)
  let yRange : Int := Int.tdiv (SCREEN_HEIGHT - 8 * textSize) 2
  let xRange : Int := Int.tdiv (SCREEN_WIDTH - width) 2
  let xOffset : Int := castInt (xRange + sinX * xRange)
  let yOffset : Int := castInt (yRange + sinY * yRange)
  let y : Int := constrain (getYCoordinateForTemperature v v.Last - 4) 0
    (SCREEN_HEIGHT - 8 * textSize)
  (SCREEN_WIDTH - width - xOffset, y - yOffset)

/-- The function `drawBouncingText`. -/
def drawBouncingText (v : BufferView) (sinX sinY : ℚ) : List DrawOp :=
  [DrawOp.setTextSize (bouncingLabel v).2,
   DrawOp.setTextColor TEMP_COLOR,
   DrawOp.setCursor (bouncingCursor v sinX sinY).1 (bouncingCursor v sinX sinY).2,
   DrawOp.println (bouncingLabel v).1]

/-! ## The render pass and the indicator -/

/-- The function `updateDisplay` (`drawDebugData` draws nothing). -/
def updateDisplay (v : BufferView) (sinX sinY : ℚ) : List DrawOp :=
  (if v.Last > MIN_TEMP v then
    let tempString := toString (round v.Last)
    let textSize : Int := 1
    let width : Int := (tempString.length : Int) * (6 * textSize)
    let offset : Int := -width - 2
    drawGridlines v offset ++ drawTemperatureGraph v offset
    ++ [DrawOp.setTextSize textSize,
        DrawOp.setTextColor TEMP_COLOR,
        DrawOp.setCursor (SCREEN_WIDTH - width)
          (constrain (getYCoordinateForTemperature v v.Last - 4) 0
            (SCREEN_HEIGHT - 8 * textSize)),
        DrawOp.println tempString]
  else
    drawBouncingText v sinX sinY)
  ++ [DrawOp.display]

/-- The function `updateLED`; `sinPulse` is the value of `sin(millis() / 1000.0f)`. -/
def updateLED (v : BufferView) (sinPulse : ℚ) : List LedOp :=
  if v.Last > MIN_TEMP v then
    let colour :=
      if v.Last > COFFEE_RANGE_MAX then LedOp.setPixelColor 0 255 0 0
      else if v.Last < COFFEE_RANGE_MIN then LedOp.setPixelColor 0 0 0 255
      else LedOp.setPixelColor 0 0 255 0
    let pulse : ℚ := (sinPulse + 1) / 2
    let brightness : Int := castInt (PULSE_MIN + pulse * (PULSE_MAX - PULSE_MIN)) % 256
    [colour, LedOp.setBrightness brightness, LedOp.show]
  else if v.Last < ERROR_TEMP then
    [LedOp.setPixelColor 0 255 0 0, LedOp.setBrightness 255, LedOp.show]
  else
    [LedOp.setBrightness 0, LedOp.show]

/-! ## The ring buffer -/

/-- Modelled from the spec: the class `CircularBuffer` of `CircularBuffer.h`,
which is missing from the sources.  A fixed number of physical slots, the count
`n` of valid entries and the write cursor `w`. -/
structure CircularBuffer where
  capacity : Nat
  slots : List ℚ
  n : Nat
  w : Nat

namespace CircularBuffer

/-- Modelled from the spec: the constructor of the missing class, an empty
buffer of the given capacity. -/
def new (capacity : Nat) : CircularBuffer :=
  { capacity := capacity, slots := List.replicate capacity 0, n := 0, w := 0 }

/-- Modelled from the spec: `Count()` of the missing class. -/
def GetCount (b : CircularBuffer) : Nat := b.n

/-- Modelled from the spec: `StartIndex()` of the missing class, the physical
slot of the oldest logical entry.  While `n < C` logical index `i` is physical
slot `i`, so the oldest entry is in slot `0`; once full, the oldest entry is the
one the write cursor is about to overwrite. -/
def GetStartIndex (b : CircularBuffer) : Nat := if b.n < b.capacity then 0 else b.w

/-- Modelled from the spec: `Get(logicalIndex)` of the missing class, oldest
first.  The spec leaves an index outside the count undefined; the slot content
(or `0` outside the storage) is returned here. -/
def Get (b : CircularBuffer) (i : Nat) : ℚ :=
  b.slots.getD ((b.GetStartIndex + i) % b.capacity) 0

/-- Modelled from the spec: the valid entries of the missing class, oldest
first. -/
def entries (b : CircularBuffer) : List ℚ := (List.range b.n).map b.Get

/-- Modelled from the spec: `Last()` of the missing class, the newest logical
value, and `0` when the buffer is empty. -/
def Last (b : CircularBuffer) : ℚ := if b.n = 0 then 0 else b.Get (b.n - 1)

/-- Modelled from the spec: `Min()` of the missing class, the least valid entry
(`0` for an empty buffer, which the spec leaves open). -/
def Min (b : CircularBuffer) : ℚ :=
  match b.entries with
  | [] => 0
  | x :: xs => xs.foldl min x

/-- Modelled from the spec: `Max()` of the missing class, the greatest valid
entry (`0` for an empty buffer, which the spec leaves open). -/
def Max (b : CircularBuffer) : ℚ :=
  match b.entries with
  | [] => 0
  | x :: xs => xs.foldl max x

/-- Modelled from the spec: `Average()` of the missing class, `sum / n`, and the
documented default `0` for an empty buffer. -/
def Average (b : CircularBuffer) : ℚ :=
  if b.n = 0 then 0 else b.entries.sum / b.n

/-- Modelled from the spec: `Add(value)` of the missing class.  The value is
written to slot `w`; the count grows while it is below the capacity; the cursor
advances modulo the capacity. -/
def Add (b : CircularBuffer) (value : ℚ) : CircularBuffer :=
  { b with
    slots := b.slots.set b.w value
    n := if b.n < b.capacity then b.n + 1 else b.n
    w := (b.w + 1) % b.capacity }

/-- Modelled from the spec: `UpdateLast(value)` of the missing class.  The
newest logical entry is replaced; `n` and `w` are unchanged.  On an empty buffer,
which the spec does not describe, nothing is written. -/
def UpdateLast (b : CircularBuffer) (value : ℚ) : CircularBuffer :=
  if b.n = 0 then b
  else { b with slots := b.slots.set ((b.GetStartIndex + (b.n - 1)) % b.capacity) value }

/-- The observers of a buffer as the renderer reads them. -/
def view (b : CircularBuffer) : BufferView :=
  { GetCount := b.GetCount
    GetStartIndex := b.GetStartIndex
    Min := b.Min
    Max := b.Max
    Get := fun i => b.Get i.toNat
    Last := b.Last }

end CircularBuffer

/-! ## The sampling loop -/

/-- The global variables of the sketch that `loop` reads and writes. -/
structure State where
  storedData : CircularBuffer
  filteredData : CircularBuffer
  storedDataTimer : Int
  lastPollTime : Nat
  lastReadTime : Nat
  readCount : Int
  temperature : ℚ

/-- What one call of `loop` receives from outside: the clock (`millis()`, read
as one value for the whole call), the sensor reading `readCelsius()` would
return, and the three sine values used by the render pass and the indicator. -/
structure Tick where
  millis : Nat
  readCelsius : ℚ
  sinX : ℚ
  sinY : ℚ
  sinPulse : ℚ

/-- What one call of `loop` does to the outside. -/
inductive Event where
  | filteredAdd (value : ℚ)
  | storedAdd (value : ℚ)
  | storedUpdateLast (value : ℚ)
  | draw (ops : List DrawOp)
  | led (ops : List LedOp)

/-- Difference of two `unsigned long` values. -/
def elapsed (now last : Nat) : Nat := (now + 2 ^ 32 - last % 2 ^ 32) % 2 ^ 32

/-- The initial values of the globals, before `setup`. -/
def initialState : State :=
  { storedData := CircularBuffer.new DATA_STORE_SIZE.toNat
    filteredData := CircularBuffer.new DATA_STORE_INTERVAL.toNat
    storedDataTimer := 0
    lastPollTime := 0
    lastReadTime := 0
    readCount := 0
    temperature := 0 }

/-- The function `setup`, when the display initialises: of the globals only
`storedDataTimer` is written. -/
def setup (s : State) : State :=
  { s with storedDataTimer := DATA_STORE_INTERVAL + 1 }

/-- Whether this call of `loop` takes a reading: both timers have run out. -/
def takesReading (t : Tick) (s : State) : Bool :=
  decide (elapsed t.millis s.lastPollTime > POLLING_DELAY)
    && decide (elapsed t.millis s.lastReadTime > READ_DELAY)

/-- The body of `if (readCount >= ITERATIONS)` in `loop`, entered with the
accumulated `temperature`: the end of a burst. -/
def completeBurst (t : Tick) (s : State) : State × List Event :=
  let temperature := s.temperature / ITERATIONS
  let filteredData := s.filteredData.Add temperature
  let storedDataTimer := s.storedDataTimer + 1
  let average := filteredData.Average
  if storedDataTimer ≥ DATA_STORE_INTERVAL then
    let storedData := s.storedData.Add average
    ({ s with lastPollTime := t.millis, filteredData := filteredData, temperature := 0,
              readCount := 0, storedDataTimer := 0, storedData := storedData },
     [Event.filteredAdd temperature, Event.draw [DrawOp.clearDisplay],
      Event.storedAdd average,
      Event.draw (updateDisplay storedData.view t.sinX t.sinY)])
  else
    let storedData := s.storedData.UpdateLast average
    ({ s with lastPollTime := t.millis, filteredData := filteredData, temperature := 0,
              readCount := 0, storedDataTimer := storedDataTimer, storedData := storedData },
     [Event.filteredAdd temperature, Event.draw [DrawOp.clearDisplay],
      Event.storedUpdateLast average,
      Event.draw (updateDisplay storedData.view t.sinX t.sinY)])

/-- The function `loop`: the new globals and what was done to the outside. -/
def loop (t : Tick) (s : State) : State × List Event :=
  let r : State × List Event :=
    if takesReading t s then
      let s1 : State :=
        { s with readCount := s.readCount + 1
                 temperature := s.temperature + t.readCelsius
                 lastReadTime := t.millis }
      if s1.readCount ≥ ITERATIONS then completeBurst t s1 else (s1, [])
    else (s, [])
  (r.1, r.2 ++ [Event.led (updateLED r.1.storedData.view t.sinPulse)])

/-- Successive calls of `loop`, one per tick, with the events in order. -/
def run : State → List Tick → State × List Event
  | s, [] => (s, [])
  | s, t :: ts =>
    let r := loop t s
    let rest := run r.1 ts
    (rest.1, r.2 ++ rest.2)

/-- The number of calls of `loop` that take a reading along a run. -/
def readingsTaken : State → List Tick → Nat
  | _, [] => 0
  | s, t :: ts => (if takesReading t s then 1 else 0) + readingsTaken (loop t s).1 ts

/-- The number of `storedData.Add` calls among the events. -/
def countStoredAdd : List Event → Nat
  | [] => 0
  | Event.storedAdd _ :: es => countStoredAdd es + 1
  | _ :: es => countStoredAdd es

/-- The number of `storedData.UpdateLast` calls among the events. -/
def countStoredUpdateLast : List Event → Nat
  | [] => 0
  | Event.storedUpdateLast _ :: es => countStoredUpdateLast es + 1
  | _ :: es => countStoredUpdateLast es

/-- The number of completed bursts among the events (each burst makes exactly
one `filteredData.Add`). -/
def countBursts : List Event → Nat
  | [] => 0
  | Event.filteredAdd _ :: es => countBursts es + 1
  | _ :: es => countBursts es

/-! ## Definitions used to state the properties -/

/-- A history buffer view with the given extremes, every sample equal to `last`. -/
def flatView (mn mx last : ℚ) (count : Int) : BufferView :=
  { GetCount := count, GetStartIndex := 0, Min := mn, Max := mx,
    Get := fun _ => last, Last := last }

/-- The vertical mapping as the specification words it:
`round((ceiling − t) / (ceiling − floor) * screenHeight)`. -/
def specYCoordinate (v : BufferView) (t : ℚ) : Int :=
  round ((max (v.Max + 5) 110 - t) / (max (v.Max + 5) 110 - max (v.Min - 5) 45)
    * SCREEN_HEIGHT)

/-- The y of a draw call when it is a line in the emphasized colour
`MAJOR_GRID_COLOR`, which only the two target-band lines use. -/
def majorLineY : DrawOp → Option Int
  | DrawOp.drawLine _ y0 _ _ color => if color = MAJOR_GRID_COLOR then some y0 else none
  | _ => none

/-- The y-coordinates of the emphasized lines among a list of draw calls. -/
def majorLineYs (ops : List DrawOp) : List Int := ops.filterMap majorLineY

/-- The history buffer (capacity `DATA_STORE_SIZE`) after adding the given
values in order to an empty buffer. -/
def historyOf (values : List ℚ) : CircularBuffer :=
  values.foldl CircularBuffer.Add (CircularBuffer.new DATA_STORE_SIZE.toNat)

/-- The texts printed by a list of draw calls, in order. -/
def printedTexts (ops : List DrawOp) : List String :=
  ops.filterMap (fun op => match op with
    | DrawOp.println text => some text
    | _ => none)

/-- The part of the state of the sketch that decides between `Add` and `UpdateLast`,
together with the number of `storedData.Add` calls, of `storedData.UpdateLast`
calls and of completed bursts so far. -/
structure Counters where
  storedDataTimer : Int
  readCount : Int
  adds : Nat
  updates : Nat
  bursts : Nat
  deriving DecidableEq, Repr

/-- The effect of one reading on the counters, as `loop` has it: the reading is
counted; the third reading of a burst resets `readCount`, increments
`storedDataTimer` and commits with `Add` when the timer has reached
`DATA_STORE_INTERVAL`, refines with `UpdateLast` otherwise. -/
def Counters.step (c : Counters) : Counters :=
  if c.readCount + 1 ≥ ITERATIONS then
    if c.storedDataTimer + 1 ≥ DATA_STORE_INTERVAL then
      { storedDataTimer := 0, readCount := 0, adds := c.adds + 1, updates := c.updates,
        bursts := c.bursts + 1 }
    else
      { storedDataTimer := c.storedDataTimer + 1, readCount := 0, adds := c.adds,
        updates := c.updates + 1, bursts := c.bursts + 1 }
  else { c with readCount := c.readCount + 1 }

/-- The counters of a state reached with the given events behind it. -/
def countersOf (s : State) (events : List Event) : Counters :=
  { storedDataTimer := s.storedDataTimer
    readCount := s.readCount
    adds := countStoredAdd events
    updates := countStoredUpdateLast events
    bursts := countBursts events }

/-- Ticks one second apart, each with a reading of 20 degrees. -/
def steadyTicks (count : Nat) : List Tick :=
  (List.range count).map (fun i =>
    { millis := (i + 1) * 1000, readCelsius := 20, sinX := 0, sinY := 0, sinPulse := 0 })

/-! ## The binary32 reading of the display range

`MIN_TEMP`, `MAX_TEMP` and `getYCoordinateForTemperature` above read the `float`
arithmetic of the sketch as exact.  The definitions below give the display range
with every `float` operation rounded to binary32 (round to nearest, ties to even),
for magnitudes below `2 ^ 128`, where no overflow occurs. -/

/-- The nearest integer, a tie going to the even neighbour. -/
def roundHalfEven (x : ℚ) : Int :=
  if x - ⌊x⌋ < 1 / 2 then ⌊x⌋
  else if x - ⌊x⌋ > 1 / 2 then ⌊x⌋ + 1
  else if ⌊x⌋ % 2 = 0 then ⌊x⌋ else ⌊x⌋ + 1

/-- The power `2 ^ e` for an integer exponent. -/
def pow2 (e : Int) : ℚ := if 0 ≤ e then (2 : ℚ) ^ e.toNat else 1 / (2 : ℚ) ^ (-e).toNat

/-- The number of halvings that bring `n` below 2, at most `fuel` of them. -/
def halvings : Nat → Nat → Nat
  | 0, _ => 0
  | fuel + 1, n => if 2 ≤ n then halvings fuel (n / 2) + 1 else 0

/-- The exponent of the leading bit of `n`: the `k` with `2 ^ k ≤ n < 2 ^ (k + 1)`
for `n ≥ 1` (`n` halvings are more than enough). -/
def leadingBit (n : Nat) : Nat := halvings n n

/-- The exponent `e` with `2 ^ e ≤ |q| < 2 ^ (e + 1)`, for `q ≠ 0`. -/
def binade (q : ℚ) : Int :=
  if 1 ≤ |q| then (leadingBit ⌊|q|⌋.toNat : Int)
  else if 1 / |q| ≤ (2 : ℚ) ^ leadingBit ⌊1 / |q|⌋.toNat then
    -(leadingBit ⌊1 / |q|⌋.toNat : Int)
  else -((leadingBit ⌊1 / |q|⌋.toNat : Int) + 1)

/-- The binary32 value nearest to `q` (24 significant bits, least exponent −126,
ties to even). -/
def float32 (q : ℚ) : ℚ :=
  if q = 0 then 0
  else (roundHalfEven (q / pow2 (max (binade q) (-126) - 23)) : ℚ)
    * pow2 (max (binade q) (-126) - 23)

/-- The macro `MIN_TEMP` in binary32: `storedData.Min() - 5` is a `float`
subtraction. -/
def MIN_TEMP_binary32 (v : BufferView) : ℚ := cmax (float32 (v.Min - 5)) 45

/-- The macro `MAX_TEMP` in binary32: `storedData.Max() + 5` is a `float`
addition. -/
def MAX_TEMP_binary32 (v : BufferView) : ℚ := cmax (float32 (v.Max + 5)) 110

/-- The divisor `(float)(MAX_TEMP - MIN_TEMP)` of `getYCoordinateForTemperature`
in binary32. -/
def range_binary32 (v : BufferView) : ℚ :=
  float32 (MAX_TEMP_binary32 v - MIN_TEMP_binary32 v)

/-! ## Arithmetic lemmas -/

theorem cmax_eq_max (a b : ℚ) : cmax a b = max a b := by
  unfold cmax
  split_ifs with h
  · exact (max_eq_left h.le).symm
  · exact (max_eq_right (not_lt.mp h)).symm

theorem castInt_of_nonneg {q : ℚ} (h : 0 ≤ q) : castInt q = ⌊q⌋ := by
  simp [castInt, h]

theorem castInt_of_neg {q : ℚ} (h : q < 0) : castInt q = ⌈q⌉ := by
  simp [castInt, not_le.mpr h]

theorem castInt_intCast (z : Int) : castInt (z : ℚ) = z := by
  unfold castInt
  split_ifs <;> simp

theorem castInt_mono {a b : ℚ} (h : a ≤ b) : castInt a ≤ castInt b := by
  unfold castInt
  split_ifs with ha hb hb
  · exact Int.floor_mono h
  · exact absurd (ha.trans h) hb
  · have h1 : ⌈a⌉ ≤ 0 := Int.ceil_le.mpr (by exact_mod_cast (not_le.mp ha).le)
    have h2 : 0 ≤ ⌊b⌋ := Int.floor_nonneg.mpr hb
    exact h1.trans h2
  · exact Int.ceil_mono h

theorem range_ge_ten (v : BufferView) (h : v.Min ≤ v.Max) :
    10 ≤ MAX_TEMP v - MIN_TEMP v := by
  unfold MAX_TEMP MIN_TEMP
  rw [cmax_eq_max, cmax_eq_max]
  rcases le_total (v.Min - 5) 45 with h1 | h1
  · rw [max_eq_right h1]
    have := le_max_right (v.Max + 5) 110
    linarith
  · rw [max_eq_left h1]
    have := le_max_left (v.Max + 5) 110
    linarith

theorem getY_eq (v : BufferView) (t : ℚ) :
    getYCoordinateForTemperature v t
      = castInt ((MAX_TEMP v - t) / (MAX_TEMP v - MIN_TEMP v) * SCREEN_HEIGHT) := by
  simp only [getYCoordinateForTemperature]
  congr 1
  ring

theorem getY_antitone (v : BufferView) (h : v.Min ≤ v.Max) {a b : ℚ} (hab : a ≤ b) :
    getYCoordinateForTemperature v b ≤ getYCoordinateForTemperature v a := by
  rw [getY_eq, getY_eq]
  apply castInt_mono
  have hr : 0 < MAX_TEMP v - MIN_TEMP v := by linarith [range_ge_ten v h]
  have hs : (0 : ℚ) ≤ (SCREEN_HEIGHT : ℚ) := by norm_num [SCREEN_HEIGHT]
  apply mul_le_mul_of_nonneg_right _ hs
  apply div_le_div_of_nonneg_right _ hr.le
  linarith

/-! ## The vertical mapping (C3, C4, C10) -/

/-- C3 (as stated, refuted): with Min = Max = 50 and t = 109 the code returns 1
while the rounded formula gives 2. -/
theorem C3_round_counterexample :
    (flatView 50 50 50 1).Min ≤ (flatView 50 50 50 1).Max
    ∧ getYCoordinateForTemperature (flatView 50 50 50 1) 109 = 1
    ∧ specYCoordinate (flatView 50 50 50 1) 109 = 2
    ∧ getYCoordinateForTemperature (flatView 50 50 50 1) 109
        ≠ specYCoordinate (flatView 50 50 50 1) 109 := by
  decide!

/-- C3 (amended): for Min ≤ Max and every temperature t, the returned coordinate
is the truncation toward zero of (ceiling − t) / (ceiling − floor) * SCREEN_HEIGHT,
where floor = max(Min − 5, 45), ceiling = max(Max + 5, 110), SCREEN_HEIGHT = 128. -/
theorem C3_getY_truncates (v : BufferView) (t : ℚ) (h : v.Min ≤ v.Max) :
    0 < max (v.Max + 5) 110 - max (v.Min - 5) 45
    ∧ getYCoordinateForTemperature v t
      = castInt ((max (v.Max + 5) 110 - t) / (max (v.Max + 5) 110 - max (v.Min - 5) 45)
          * 128) := by
  have hr := range_ge_ten v h
  have e := getY_eq v t
  simp only [MAX_TEMP, MIN_TEMP, cmax_eq_max] at hr e
  refine ⟨by linarith, ?_⟩
  rw [e]
  norm_num [SCREEN_HEIGHT]

theorem C3_getY_truncates_witness :
    (flatView 50 50 50 1).Min ≤ (flatView 50 50 50 1).Max
    ∧ getYCoordinateForTemperature (flatView 50 50 50 1) 109
      = castInt ((max ((flatView 50 50 50 1).Max + 5) 110 - 109)
          / (max ((flatView 50 50 50 1).Max + 5) 110 - max ((flatView 50 50 50 1).Min - 5) 45)
          * 128) :=
  ⟨by decide!, (C3_getY_truncates (flatView 50 50 50 1) 109 (by decide!)).2⟩

/-- C4 (as stated, refuted): 100 < 100.125 both lie in the range [45, 110] of a
buffer with Min = Max = 50, and both map to y = 19. -/
theorem C4_strict_counterexample :
    ¬ ∀ (v : BufferView) (a b : ℚ), v.Min ≤ v.Max → a < b →
        max (v.Min - 5) 45 ≤ a → b ≤ max (v.Max + 5) 110 →
        getYCoordinateForTemperature v a > getYCoordinateForTemperature v b := by
  intro h
  have := h (flatView 50 50 50 1) 100 (801 / 8) (by decide!) (by decide!) (by decide!)
    (by decide!)
  revert this
  decide!

/-- C4 (amended): for Min ≤ Max and a < b in the active display range
[max(Min − 5, 45), max(Max + 5, 110)], the coordinate is weakly decreasing:
y(a) ≥ y(b). -/
theorem C4_getY_decreasing (v : BufferView) (a b : ℚ) (h : v.Min ≤ v.Max) (hab : a < b)
    (_ha : max (v.Min - 5) 45 ≤ a) (_hb : b ≤ max (v.Max + 5) 110) :
    getYCoordinateForTemperature v a ≥ getYCoordinateForTemperature v b :=
  getY_antitone v h hab.le

theorem C4_getY_decreasing_witness :
    (flatView 50 50 50 1).Min ≤ (flatView 50 50 50 1).Max
    ∧ max ((flatView 50 50 50 1).Min - 5) 45 ≤ 100
    ∧ (801 / 8 : ℚ) ≤ max ((flatView 50 50 50 1).Max + 5) 110
    ∧ getYCoordinateForTemperature (flatView 50 50 50 1) 100
        ≥ getYCoordinateForTemperature (flatView 50 50 50 1) (801 / 8) :=
  ⟨by decide!, by decide!, by decide!,
   C4_getY_decreasing (flatView 50 50 50 1) 100 (801 / 8) (by decide!) (by decide!)
     (by decide!) (by decide!)⟩

/-- C10 (as stated, refuted): in the binary32 arithmetic of the sketch the range can
fall below 10 and can vanish.  Min = Max = 125 + 2⁻¹⁷ (a binary32 value) gives
Max + 5 = 130 and Min − 5 = 120 + 2⁻¹⁷, a range of 10 − 2⁻¹⁷; Min = Max = 2²⁸ gives
Max + 5 = Min − 5 = 2²⁸, a range of 0, so SCREEN_HEIGHT is divided by zero. -/
theorem C10_binary32_counterexample :
    float32 (125 + 1 / 131072) = 125 + 1 / 131072
    ∧ (flatView (125 + 1 / 131072) (125 + 1 / 131072) (125 + 1 / 131072) 1).Min
        ≤ (flatView (125 + 1 / 131072) (125 + 1 / 131072) (125 + 1 / 131072) 1).Max
    ∧ MAX_TEMP_binary32 (flatView (125 + 1 / 131072) (125 + 1 / 131072) (125 + 1 / 131072) 1)
        = 130
    ∧ MIN_TEMP_binary32 (flatView (125 + 1 / 131072) (125 + 1 / 131072) (125 + 1 / 131072) 1)
        = 120 + 1 / 131072
    ∧ range_binary32 (flatView (125 + 1 / 131072) (125 + 1 / 131072) (125 + 1 / 131072) 1)
        = 10 - 1 / 131072
    ∧ range_binary32 (flatView (125 + 1 / 131072) (125 + 1 / 131072) (125 + 1 / 131072) 1)
        < 10
    ∧ float32 (2 ^ 28) = 2 ^ 28
    ∧ (flatView (2 ^ 28) (2 ^ 28) (2 ^ 28) 1).Min ≤ (flatView (2 ^ 28) (2 ^ 28) (2 ^ 28) 1).Max
    ∧ MAX_TEMP_binary32 (flatView (2 ^ 28) (2 ^ 28) (2 ^ 28) 1) = 2 ^ 28
    ∧ MIN_TEMP_binary32 (flatView (2 ^ 28) (2 ^ 28) (2 ^ 28) 1) = 2 ^ 28
    ∧ range_binary32 (flatView (2 ^ 28) (2 ^ 28) (2 ^ 28) 1) = 0 := by
  decide!

/-- C10 (amended): reading the arithmetic as exact rationals, for Min ≤ Max the
display range MAX_TEMP − MIN_TEMP = max(Max + 5, 110) − max(Min − 5, 45) is at least
10, so the divisor of getYCoordinateForTemperature is not zero (dividing by it and
multiplying back gives SCREEN_HEIGHT), and the mapping sends the ceiling to y = 0
and the floor to y = SCREEN_HEIGHT. -/
theorem C10_range_not_degenerate (v : BufferView) (h : v.Min ≤ v.Max) :
    MAX_TEMP v = max (v.Max + 5) 110 ∧ MIN_TEMP v = max (v.Min - 5) 45
    ∧ 10 ≤ MAX_TEMP v - MIN_TEMP v
    ∧ (SCREEN_HEIGHT : ℚ) / (MAX_TEMP v - MIN_TEMP v) * (MAX_TEMP v - MIN_TEMP v) = SCREEN_HEIGHT
    ∧ getYCoordinateForTemperature v (MAX_TEMP v) = 0
    ∧ getYCoordinateForTemperature v (MIN_TEMP v) = SCREEN_HEIGHT := by
  have hr := range_ge_ten v h
  have hne : MAX_TEMP v - MIN_TEMP v ≠ 0 := by linarith
  refine ⟨cmax_eq_max _ _, cmax_eq_max _ _, hr, div_mul_cancel₀ _ hne, ?_, ?_⟩
  · rw [getY_eq, sub_self, zero_div, zero_mul]
    exact castInt_intCast 0
  · rw [getY_eq, div_self hne, one_mul]
    exact castInt_intCast _

theorem C10_range_not_degenerate_witness :
    (flatView 97 101 97 3).Min ≤ (flatView 97 101 97 3).Max
    ∧ 10 ≤ MAX_TEMP (flatView 97 101 97 3) - MIN_TEMP (flatView 97 101 97 3)
    ∧ getYCoordinateForTemperature (flatView 97 101 97 3) (MAX_TEMP (flatView 97 101 97 3)) = 0
    ∧ getYCoordinateForTemperature (flatView 97 101 97 3) (MIN_TEMP (flatView 97 101 97 3))
        = SCREEN_HEIGHT :=
  have h := C10_range_not_degenerate (flatView 97 101 97 3) (by decide!)
  ⟨by decide!, h.2.2.1, h.2.2.2.2.1, h.2.2.2.2.2⟩

/-! ## The target-band lines (C5) -/

theorem majorLineYs_flatMap_rows (rows : List (Int × ℚ)) :
    majorLineYs (rows.flatMap
      (fun r => [DrawOp.drawLine 0 r.1 SCREEN_WIDTH r.1 (GRID_COLOR + 1),
                 DrawOp.setCursor 0 (r.1 - 8),
                 DrawOp.println (toString (castInt r.2))])) = [] := by
  induction rows with
  | nil => rfl
  | cons r rs ih =>
    simp only [majorLineYs] at ih
    simp only [majorLineYs, List.flatMap_cons, List.filterMap_append, ih, List.append_nil]
    rfl

theorem majorLineYs_map_columns (xs : List Int) :
    majorLineYs (xs.map (fun x => DrawOp.drawBitmap x 0 1 SCREEN_HEIGHT GRID_COLOR)) = [] := by
  induction xs with
  | nil => rfl
  | cons x xs ih =>
    simp only [majorLineYs] at ih
    simp [majorLineYs, majorLineY, ih]

theorem majorLineYs_drawGridlines (v : BufferView) (offset : Int) :
    majorLineYs (drawGridlines v offset)
      = [getYCoordinateForTemperature v COFFEE_RANGE_MAX,
         getYCoordinateForTemperature v COFFEE_RANGE_MIN] := by
  have h1 := majorLineYs_flatMap_rows
  have h2 := majorLineYs_map_columns
  simp only [majorLineYs] at h1 h2 ⊢
  simp only [drawGridlines, List.filterMap_append, h1, h2]
  simp [majorLineY, MAJOR_GRID_COLOR, SSD1327_WHITE]

theorem getY_congr (v w : BufferView) (hmin : v.Min = w.Min) (hmax : v.Max = w.Max) (t : ℚ) :
    getYCoordinateForTemperature v t = getYCoordinateForTemperature w t := by
  simp only [getYCoordinateForTemperature, MAX_TEMP, MIN_TEMP, hmin, hmax]

/-- C5 (as stated, refuted): the buffer [98, 101, 97] puts the band lines at
y = −71 and y = 106, the buffer [50] puts them at y = −19 and y = 29. -/
theorem C5_band_lines_counterexample :
    majorLineYs (drawGridlines (historyOf [98, 101, 97]).view (-14)) = [-71, 106]
    ∧ majorLineYs (drawGridlines (historyOf [50]).view (-14)) = [-19, 29]
    ∧ majorLineYs (drawGridlines (historyOf [98, 101, 97]).view (-14))
        ≠ majorLineYs (drawGridlines (historyOf [50]).view (-14)) := by
  decide!

/-- C5 (amended): drawGridlines draws exactly two emphasized lines, at the
y-coordinates that getYCoordinateForTemperature gives to the fixed temperatures
COFFEE_RANGE_MAX = 120 and COFFEE_RANGE_MIN = 95 under the current display range;
these depend on the buffer only through Min() and Max(): two buffer states with the
same Min() and Max() draw each band line at the same y, whatever the offset. -/
theorem C5_band_lines_follow_range (v w : BufferView) (offset offset2 : Int)
    (hmin : v.Min = w.Min) (hmax : v.Max = w.Max) :
    majorLineYs (drawGridlines v offset)
        = [getYCoordinateForTemperature v 120, getYCoordinateForTemperature v 95]
    ∧ majorLineYs (drawGridlines w offset2) = majorLineYs (drawGridlines v offset) := by
  rw [majorLineYs_drawGridlines, majorLineYs_drawGridlines]
  refine ⟨by norm_num [COFFEE_RANGE_MAX, COFFEE_RANGE_MIN], ?_⟩
  rw [getY_congr w v hmin.symm hmax.symm, getY_congr w v hmin.symm hmax.symm]

theorem C5_band_lines_follow_range_witness :
    (historyOf [98, 101, 97]).view.Min = (historyOf [97, 101]).view.Min
    ∧ (historyOf [98, 101, 97]).view.Max = (historyOf [97, 101]).view.Max
    ∧ majorLineYs (drawGridlines (historyOf [97, 101]).view (-20))
        = majorLineYs (drawGridlines (historyOf [98, 101, 97]).view (-14)) :=
  ⟨by decide!, by decide!,
   (C5_band_lines_follow_range (historyOf [98, 101, 97]).view (historyOf [97, 101]).view
      (-14) (-20) (by decide!) (by decide!)).2⟩

/-! ## The fault overlay and the alert colour (C2) -/

theorem MIN_TEMP_ge (v : BufferView) : 45 ≤ MIN_TEMP v := by
  unfold MIN_TEMP
  rw [cmax_eq_max]
  exact le_max_right _ _

theorem lt_of_round_lt_error {x : ℚ} (h : round x < ERROR_TEMP) : x ≤ -201 / 2 := by
  unfold round at h
  simp only [ERROR_TEMP] at h
  split_ifs at h with hx
  · have h1 : (0 : ℚ) ≤ x + 1 / 2 := by linarith
    rw [castInt_of_nonneg h1] at h
    have := Int.floor_nonneg.mpr h1
    omega
  · have h1 : x - 1 / 2 < 0 := by linarith [not_le.mp hx]
    rw [castInt_of_neg h1] at h
    have h2 : ⌈x - 1 / 2⌉ ≤ -101 := by omega
    have h3 := Int.ceil_le.mp h2
    push_cast at h3
    linarith

theorem updateDisplay_overlay (v : BufferView) (sinX sinY : ℚ) (h : ¬ v.Last > MIN_TEMP v) :
    updateDisplay v sinX sinY = drawBouncingText v sinX sinY ++ [DrawOp.display] := by
  simp only [updateDisplay, h, if_false]

/-- C2 (as stated, refuted): with the latest value equal to ERROR_TEMP = −100 the
display prints the numeral "-100" and the indicator is switched off (brightness 0,
no colour set). -/
theorem C2_sentinel_counterexample :
    (flatView (-100) (-100) (-100) 1).Last = ERROR_TEMP
    ∧ printedTexts (updateDisplay (flatView (-100) (-100) (-100) 1) 0 0) = ["-100"]
    ∧ updateLED (flatView (-100) (-100) (-100) 1) 0 = [LedOp.setBrightness 0, LedOp.show] := by
  decide!

/-- C2 (amended): whenever the latest value rounds to less than ERROR_TEMP = −100
(that is, Last ≤ −100.5), updateDisplay prints exactly one text, "ERROR", and
updateLED sets the colour (255, 0, 0) at brightness 255. -/
theorem C2_fault_overlay_and_alert (v : BufferView) (sinX sinY sinPulse : ℚ)
    (h : round v.Last < ERROR_TEMP) :
    printedTexts (updateDisplay v sinX sinY) = ["ERROR"]
    ∧ updateLED v sinPulse
        = [LedOp.setPixelColor 0 255 0 0, LedOp.setBrightness 255, LedOp.show] := by
  have hl := lt_of_round_lt_error h
  have hm := MIN_TEMP_ge v
  have hnot : ¬ v.Last > MIN_TEMP v := by
    intro hc
    linarith
  have herr : v.Last < (ERROR_TEMP : ℚ) := by
    norm_num [ERROR_TEMP]
    linarith
  constructor
  · rw [updateDisplay_overlay v sinX sinY hnot]
    simp [printedTexts, drawBouncingText, bouncingLabel, h]
  · simp only [updateLED, hnot, herr, if_false, if_true]

theorem C2_fault_overlay_and_alert_witness :
    round (flatView (-101) (-101) (-101) 1).Last < ERROR_TEMP
    ∧ printedTexts (updateDisplay (flatView (-101) (-101) (-101) 1) 1 1) = ["ERROR"]
    ∧ updateLED (flatView (-101) (-101) (-101) 1) 0
        = [LedOp.setPixelColor 0 255 0 0, LedOp.setBrightness 255, LedOp.show] :=
  ⟨by decide!, C2_fault_overlay_and_alert (flatView (-101) (-101) (-101) 1) 1 1 0 (by decide!)⟩

/-! ## The drifting overlay stays on the screen (C7) -/

theorem numeral_length_le (n : Int) (h1 : -100 ≤ n) (h2 : n ≤ 45) :
    (toString n).length ≤ 4 := by
  interval_cases n <;> decide

theorem round_le_of_le {x : ℚ} (h : x ≤ 45) : round x ≤ 45 := by
  unfold round
  split_ifs with hx
  · rw [castInt_of_nonneg (by linarith)]
    have : ⌊x + 1 / 2⌋ < 46 := Int.floor_lt.mpr (by push_cast; linarith)
    omega
  · have h1 : x - 1 / 2 < 0 := by linarith [not_le.mp hx]
    rw [castInt_of_neg h1]
    have : ⌈x - 1 / 2⌉ ≤ 0 := Int.ceil_le.mpr (by push_cast; linarith)
    omega

theorem bounce_offset_bounds (R : Int) (hR : 0 ≤ R) (s : ℚ) (h1 : -1 ≤ s) (h2 : s ≤ 1) :
    0 ≤ castInt (R + s * R) ∧ castInt (R + s * R) ≤ 2 * R := by
  have hRq : (0 : ℚ) ≤ R := by exact_mod_cast hR
  have hlo : (0 : ℚ) ≤ R + s * R := by nlinarith
  have hhi : (R : ℚ) + s * R ≤ ((2 * R : Int) : ℚ) := by push_cast; nlinarith
  rw [castInt_of_nonneg hlo]
  refine ⟨Int.floor_nonneg.mpr hlo, ?_⟩
  have := Int.floor_mono hhi
  rwa [Int.floor_intCast] at this

theorem overlay_getY_ge (v : BufferView) (hbranch : v.Last ≤ MIN_TEMP v)
    (hmin : v.Min ≤ v.Last) : SCREEN_HEIGHT ≤ getYCoordinateForTemperature v v.Last := by
  have hM : (110 : ℚ) ≤ MAX_TEMP v := by
    unfold MAX_TEMP
    rw [cmax_eq_max]
    exact le_max_right _ _
  have hL : v.Last ≤ 45 := by
    unfold MIN_TEMP at hbranch
    rw [cmax_eq_max] at hbranch
    rcases le_total (v.Min - 5) 45 with h | h
    · rwa [max_eq_right h] at hbranch
    · rw [max_eq_left h] at hbranch
      linarith
  have hm : MIN_TEMP v = 45 := by
    unfold MIN_TEMP
    rw [cmax_eq_max]
    exact max_eq_right (by linarith)
  rw [getY_eq, hm]
  have hpos : (0 : ℚ) < MAX_TEMP v - 45 := by linarith
  have h1 : (1 : ℚ) ≤ (MAX_TEMP v - v.Last) / (MAX_TEMP v - 45) := by
    rw [le_div_iff₀ hpos]
    linarith
  have h2 : ((SCREEN_HEIGHT : Int) : ℚ) ≤ (MAX_TEMP v - v.Last) / (MAX_TEMP v - 45) * SCREEN_HEIGHT := by
    have hs : (0 : ℚ) ≤ (SCREEN_HEIGHT : ℚ) := by norm_num [SCREEN_HEIGHT]
    nlinarith
  have := castInt_mono h2
  rwa [castInt_intCast] at this

theorem overlay_last_le (v : BufferView) (hbranch : v.Last ≤ MIN_TEMP v)
    (hmin : v.Min ≤ v.Last) : v.Last ≤ 45 := by
  unfold MIN_TEMP at hbranch
  rw [cmax_eq_max] at hbranch
  rcases le_total (v.Min - 5) 45 with h | h
  · rwa [max_eq_right h] at hbranch
  · rw [max_eq_left h] at hbranch
    linarith

theorem overlay_label_cases (v : BufferView) (hbranch : v.Last ≤ MIN_TEMP v)
    (hmin : v.Min ≤ v.Last) :
    (bouncingLabel v = ("ERROR", 2) ∧ round v.Last < ERROR_TEMP)
    ∨ (bouncingLabel v = (toString (round v.Last), 5)
        ∧ (toString (round v.Last)).length ≤ 4) := by
  by_cases h : round v.Last < ERROR_TEMP
  · left
    simp [bouncingLabel, h]
  · right
    refine ⟨by simp [bouncingLabel, h], ?_⟩
    apply numeral_length_le
    · simp only [ERROR_TEMP] at h
      omega
    · exact round_le_of_le (overlay_last_le v hbranch hmin)

theorem cursor_bounds (gy W H : Int) (sinX sinY : ℚ) (hgy : 128 ≤ gy)
    (hW0 : 0 ≤ W) (hW : W ≤ 128) (hH0 : 5 ≤ H) (hH : H ≤ 128)
    (hx1 : -1 ≤ sinX) (hx2 : sinX ≤ 1) (hy1 : -1 ≤ sinY) (hy2 : sinY ≤ 1) :
    0 ≤ 128 - W - castInt ((Int.tdiv (128 - W) 2 : Int) + sinX * (Int.tdiv (128 - W) 2 : Int))
    ∧ 128 - W - castInt ((Int.tdiv (128 - W) 2 : Int) + sinX * (Int.tdiv (128 - W) 2 : Int))
        + W ≤ 128
    ∧ 0 ≤ constrain (gy - 4) 0 (128 - H)
        - castInt ((Int.tdiv (128 - H) 2 : Int) + sinY * (Int.tdiv (128 - H) 2 : Int))
    ∧ constrain (gy - 4) 0 (128 - H)
        - castInt ((Int.tdiv (128 - H) 2 : Int) + sinY * (Int.tdiv (128 - H) 2 : Int))
        + H ≤ 128 := by
  have ex : Int.tdiv (128 - W) 2 = (128 - W) / 2 := Int.tdiv_eq_ediv (by omega) (by omega)
  have ey : Int.tdiv (128 - H) 2 = (128 - H) / 2 := Int.tdiv_eq_ediv (by omega) (by omega)
  have bx := bounce_offset_bounds (Int.tdiv (128 - W) 2) (by rw [ex]; omega) sinX hx1 hx2
  have byy := bounce_offset_bounds (Int.tdiv (128 - H) 2) (by rw [ey]; omega) sinY hy1 hy2
  have hc : constrain (gy - 4) 0 (128 - H) = 128 - H := by
    unfold constrain
    rw [if_neg (by omega), if_pos (by omega)]
  rw [hc]
  rw [ex] at bx
  rw [ey] at byy
  rw [ex, ey]
  omega

/-- C7: whenever updateDisplay takes the large-overlay branch (Last ≤ MIN_TEMP) with
Min ≤ Last, then for all values in [−1, 1] of the two sinusoids the pass consists of
the overlay alone, the label is "ERROR" at size 2 or the rounded numeral at size 5,
and the cursor keeps the whole label on the 128×128 screen: 0 ≤ x,
x + 6·textSize·length ≤ SCREEN_WIDTH, 0 ≤ y and y + 8·textSize ≤ SCREEN_HEIGHT. -/
theorem C7_overlay_on_screen (v : BufferView) (sinX sinY : ℚ)
    (hbranch : v.Last ≤ MIN_TEMP v) (hmin : v.Min ≤ v.Last)
    (hx1 : -1 ≤ sinX) (hx2 : sinX ≤ 1) (hy1 : -1 ≤ sinY) (hy2 : sinY ≤ 1) :
    updateDisplay v sinX sinY
        = [DrawOp.setTextSize (bouncingLabel v).2, DrawOp.setTextColor TEMP_COLOR,
           DrawOp.setCursor (bouncingCursor v sinX sinY).1 (bouncingCursor v sinX sinY).2,
           DrawOp.println (bouncingLabel v).1, DrawOp.display]
    ∧ (bouncingLabel v = ("ERROR", 2) ∨ bouncingLabel v = (toString (round v.Last), 5))
    ∧ 0 ≤ (bouncingCursor v sinX sinY).1
    ∧ (bouncingCursor v sinX sinY).1
        + 6 * (bouncingLabel v).2 * ((bouncingLabel v).1.length : Int) ≤ SCREEN_WIDTH
    ∧ 0 ≤ (bouncingCursor v sinX sinY).2
    ∧ (bouncingCursor v sinX sinY).2 + 8 * (bouncingLabel v).2 ≤ SCREEN_HEIGHT := by
  have hgy : 128 ≤ getYCoordinateForTemperature v v.Last := overlay_getY_ge v hbranch hmin
  refine ⟨by rw [updateDisplay_overlay v sinX sinY (not_lt.mpr hbranch)]; rfl, ?_⟩
  rcases overlay_label_cases v hbranch hmin with ⟨hl, _⟩ | ⟨hl, hlen⟩
  · refine ⟨Or.inl hl, ?_⟩
    have hc := cursor_bounds (getYCoordinateForTemperature v v.Last)
      ((("ERROR" : String).length : Int) * (6 * 2)) (8 * 2) sinX sinY hgy (by decide)
      (by decide) (by decide) (by decide) hx1 hx2 hy1 hy2
    simp only [bouncingCursor, hl, SCREEN_WIDTH, SCREEN_HEIGHT]
    refine ⟨hc.1, ?_, hc.2.2.1, hc.2.2.2⟩
    have := hc.2.1
    linarith
  · refine ⟨Or.inr hl, ?_⟩
    have hlen2 : ((toString (round v.Last)).length : Int) ≤ 4 := by exact_mod_cast hlen
    have hlen0 : (0 : Int) ≤ ((toString (round v.Last)).length : Int) := Int.natCast_nonneg _
    have hc := cursor_bounds (getYCoordinateForTemperature v v.Last)
      (((toString (round v.Last)).length : Int) * (6 * 5)) (8 * 5) sinX sinY hgy (by omega)
      (by omega) (by decide) (by decide) hx1 hx2 hy1 hy2
    simp only [bouncingCursor, hl, SCREEN_WIDTH, SCREEN_HEIGHT]
    refine ⟨hc.1, ?_, hc.2.2.1, hc.2.2.2⟩
    have := hc.2.1
    linarith

theorem C7_overlay_on_screen_witness :
    (flatView 0 0 0 1).Last ≤ MIN_TEMP (flatView 0 0 0 1)
    ∧ (flatView 0 0 0 1).Min ≤ (flatView 0 0 0 1).Last
    ∧ updateDisplay (flatView 0 0 0 1) (1 / 2) (-1 / 3)
        = [DrawOp.setTextSize 5, DrawOp.setTextColor 15, DrawOp.setCursor 25 59,
           DrawOp.println "0", DrawOp.display]
    ∧ 0 ≤ (bouncingCursor (flatView 0 0 0 1) (1 / 2) (-1 / 3)).1
    ∧ (bouncingCursor (flatView 0 0 0 1) (1 / 2) (-1 / 3)).2
        + 8 * (bouncingLabel (flatView 0 0 0 1)).2 ≤ SCREEN_HEIGHT :=
  have h := C7_overlay_on_screen (flatView 0 0 0 1) (1 / 2) (-1 / 3) (by decide!) (by decide!)
    (by decide!) (by decide!) (by decide!) (by decide!)
  ⟨by decide!, by decide!, by decide!, h.2.2.1, h.2.2.2.2.2⟩

/-! ## The series polyline (C8) -/

theorem seriesLoop_segment (v : BufferView) (startX : Int) (fuel : Nat) (i y : Int) (k : Nat)
    (hk : k < min fuel (v.GetCount - i).toNat) :
    (seriesLoop v startX fuel i y).1[k]?
      = some (DrawOp.drawLine (startX + (i + k) - 1)
          (if k = 0 then y else getYCoordinateForTemperature v (v.Get (i + k - 1)))
          (startX + (i + k)) (getYCoordinateForTemperature v (v.Get (i + k))) GRAPH_COLOR) := by
  induction fuel generalizing i y k with
  | zero => omega
  | succ f ih =>
    have hi : i < v.GetCount := by omega
    unfold seriesLoop
    simp only [hi, if_true]
    cases k with
    | zero => simp
    | succ k =>
      simp only [List.getElem?_cons_succ]
      rw [ih (i + 1) _ k (by omega)]
      have e1 : i + 1 + (k : Int) = i + ((k + 1 : Nat) : Int) := by push_cast; ring
      have e2 : i + ((k + 1 : Nat) : Int) - 1 = i + (k : Int) := by push_cast; ring
      rw [e1, e2]
      by_cases hk0 : k = 0
      · subst hk0
        simp
      · simp [hk0]

theorem seriesLoop_final (v : BufferView) (startX : Int) (fuel : Nat) (i y : Int)
    (h : (v.GetCount - i).toNat ≤ fuel) :
    (seriesLoop v startX fuel i y).2
      = if i < v.GetCount then getYCoordinateForTemperature v (v.Get (v.GetCount - 1)) else y := by
  induction fuel generalizing i y with
  | zero =>
    have hi : ¬ i < v.GetCount := by omega
    simp [seriesLoop, hi]
  | succ f ih =>
    unfold seriesLoop
    by_cases hi : i < v.GetCount
    · simp only [hi, if_true]
      rw [ih (i + 1) _ (by omega)]
      by_cases h1 : i + 1 < v.GetCount
      · simp [h1]
      · have : i = v.GetCount - 1 := by omega
        simp [h1, this]
    · simp [hi]

/-- What drawTemperatureGraph draws for a non-empty buffer: series segment k + 1
joins the mapped points of logical samples k and k + 1 at x = startX + k and
x = startX + k + 1; the terminal segment has the y of the last historical sample
but starts at x = startX + count, one pixel to the right of the
x = startX + count − 1 of that sample, and ends at the y of the latest value. -/
theorem drawTemperatureGraph_shape (v : BufferView) (offset : Int) (h : 1 ≤ v.GetCount) :
    (∀ k : Nat, k < (v.GetCount - 1).toNat →
      (graphSeries v offset).1[k]?
        = some (DrawOp.drawLine (graphStartX v offset + k)
            (getYCoordinateForTemperature v (v.Get k))
            (graphStartX v offset + (k + 1))
            (getYCoordinateForTemperature v (v.Get (k + 1))) GRAPH_COLOR))
    ∧ graphTerminal v offset
        = DrawOp.drawLine (graphStartX v offset + (v.GetCount - 1) + 1)
            (getYCoordinateForTemperature v (v.Get (v.GetCount - 1)))
            (graphStartX v offset + (v.GetCount - 1) + 2)
            (getYCoordinateForTemperature v v.Last) GRAPH_COLOR := by
  constructor
  · intro k hk
    rw [graphSeries, seriesLoop_segment v _ _ 1 _ k (by simpa using hk)]
    have e1 : graphStartX v offset + (1 + (k : Int)) - 1 = graphStartX v offset + k := by ring
    have e2 : (1 : Int) + k - 1 = k := by ring
    have e3 : (1 : Int) + k = k + 1 := by ring
    rw [e1, e2, e3]
    by_cases hk0 : k = 0
    · subst hk0
      simp
    · simp [hk0]
  · have hf := seriesLoop_final v (graphStartX v offset) (v.GetCount - 1).toNat 1
      (getYCoordinateForTemperature v (v.Get 0)) le_rfl
    have hy : (graphSeries v offset).2
        = getYCoordinateForTemperature v (v.Get (v.GetCount - 1)) := by
      rw [graphSeries, hf]
      by_cases h1 : 1 < v.GetCount
      · simp [h1]
      · have : v.GetCount = 1 := by omega
        simp [this]
    rw [graphTerminal, hy]
    congr 1 <;> ring

/-- C8 (the code at the failing input): for the history [98, 101, 97] and offset −14
the series segments join (110, 85), (111, 64) and (112, 92), the mapped points of
logical samples 0, 1 and 2, but the terminal segment starts at (113, 92): one pixel
to the right of the mapped point (112, 92) of the last historical sample, so the
polyline is not connected. -/
theorem C8_terminal_segment_gap :
    drawTemperatureGraph (historyOf [98, 101, 97]).view (-14)
      = [DrawOp.drawLine 110 85 111 64 GRAPH_COLOR,
         DrawOp.drawLine 111 64 112 92 GRAPH_COLOR,
         DrawOp.drawLine 113 92 114 92 GRAPH_COLOR]
    ∧ graphStartX (historyOf [98, 101, 97]).view (-14) + 2 = 112
    ∧ getYCoordinateForTemperature (historyOf [98, 101, 97]).view
        ((historyOf [98, 101, 97]).view.Get 2) = 92 := by
  decide!

/-! ## Iteration bounds of the render pass (C9) -/

theorem verticalGridXs_length_le (failsafe : Nat) (x : Int) :
    (verticalGridXs x failsafe).length ≤ failsafe := by
  induction failsafe generalizing x with
  | zero => simp [verticalGridXs]
  | succ f ih =>
    unfold verticalGridXs
    split_ifs
    · simp only [List.length_cons]
      exact Nat.succ_le_succ (ih _)
    · simp

theorem horizontalGridRows_length_le (v : BufferView) (failsafe : Nat) (temp : ℚ) (y : Int) :
    (horizontalGridRows v temp y failsafe).length ≤ failsafe := by
  induction failsafe generalizing temp y with
  | zero => simp [horizontalGridRows]
  | succ f ih =>
    unfold horizontalGridRows
    split_ifs
    · simp only [List.length_cons]
      exact Nat.succ_le_succ (ih _ _)
    · simp

theorem seriesLoop_length (v : BufferView) (startX : Int) (fuel : Nat) (i y : Int) :
    (seriesLoop v startX fuel i y).1.length = min fuel (v.GetCount - i).toNat := by
  induction fuel generalizing i y with
  | zero => simp [seriesLoop]
  | succ f ih =>
    unfold seriesLoop
    split_ifs with h
    · simp only [List.length_cons, ih]
      omega
    · simp only [List.length_nil]
      omega

theorem seriesLoop_extra_fuel (v : BufferView) (startX : Int) (fuel extra : Nat) (i y : Int)
    (h : (v.GetCount - i).toNat ≤ fuel) :
    seriesLoop v startX (fuel + extra) i y = seriesLoop v startX fuel i y := by
  induction fuel generalizing i y with
  | zero =>
    cases extra with
    | zero => rfl
    | succ e =>
      have hi : ¬ i < v.GetCount := by omega
      simp [seriesLoop, hi]
  | succ f ih =>
    rw [Nat.add_right_comm]
    unfold seriesLoop
    split_ifs with hi
    · simp only [ih (i + 1) _ (by omega)]
    · rfl

/-- C9: every loop of the render pass runs at most a fixed number of times.  For
every count an int can hold (count < 2³¹), every start index, Min, Max and offset,
the vertical-gridline loop of drawGridlines runs at most SCREEN_WIDTH = 128 times, its
horizontal-gridline loop at most SCREEN_HEIGHT = 128 times, and the series loop of
drawTemperatureGraph exactly max(count − 1, 0) times, which is at most the constant
2³¹ − 2 (and at most 127 for a count within the capacity 128); the series loop then
stops, allowing more iterations changes nothing, so the render pass terminates. -/
theorem C9_render_loops_bounded (v : BufferView) (offset : Int)
    (hint : v.GetCount < 2 ^ 31) :
    (verticalGridXs (gridStartX v offset) SCREEN_WIDTH.toNat).length ≤ 128
    ∧ (horizontalGridRows v (gridStartTemp v)
        (getYCoordinateForTemperature v (gridStartTemp v)) SCREEN_HEIGHT.toNat).length ≤ 128
    ∧ (graphSeries v offset).1.length ≤ 2 ^ 31 - 2
    ∧ (graphSeries v offset).1.length = (v.GetCount - 1).toNat
    ∧ (v.GetCount ≤ DATA_STORE_SIZE → (graphSeries v offset).1.length ≤ 127)
    ∧ ∀ extra : Nat,
        seriesLoop v (graphStartX v offset) ((v.GetCount - 1).toNat + extra) 1
          (getYCoordinateForTemperature v (v.Get 0)) = graphSeries v offset := by
  have hlen : (graphSeries v offset).1.length = (v.GetCount - 1).toNat := by
    rw [graphSeries, seriesLoop_length]
    exact min_self _
  refine ⟨verticalGridXs_length_le _ _, horizontalGridRows_length_le _ _ _ _, ?_, hlen, ?_, ?_⟩
  · rw [hlen]
    omega
  · intro hc
    rw [hlen]
    simp only [DATA_STORE_SIZE, SCREEN_WIDTH] at hc
    omega
  · intro extra
    exact seriesLoop_extra_fuel v _ _ extra 1 _ le_rfl

theorem C9_render_loops_bounded_witness :
    (historyOf [98, 101, 97]).view.GetCount < 2 ^ 31
    ∧ (verticalGridXs (gridStartX (historyOf [98, 101, 97]).view (-14))
        SCREEN_WIDTH.toNat).length ≤ 128
    ∧ (graphSeries (historyOf [98, 101, 97]).view (-14)).1.length ≤ 2 ^ 31 - 2
    ∧ (graphSeries (historyOf [98, 101, 97]).view (-14)).1.length ≤ 127 :=
  have h := C9_render_loops_bounded (historyOf [98, 101, 97]).view (-14) (by decide!)
  ⟨by decide!, h.1, h.2.2.1, h.2.2.2.2.1 (by decide!)⟩

/-! ## Gridline phase across the capacity (C6) -/

theorem foldl_Add_shape (values : List ℚ) (b : CircularBuffer) (k : Nat)
    (hc : b.capacity = 128) (hn : b.n = min k 128) (hw : b.w = k % 128) :
    (values.foldl CircularBuffer.Add b).capacity = 128
    ∧ (values.foldl CircularBuffer.Add b).n = min (k + values.length) 128
    ∧ (values.foldl CircularBuffer.Add b).w = (k + values.length) % 128 := by
  induction values generalizing b k with
  | nil => exact ⟨hc, by simpa using hn, by simpa using hw⟩
  | cons x xs ih =>
    have h := ih (b.Add x) (k + 1) (by simp [CircularBuffer.Add, hc])
      (by simp only [CircularBuffer.Add, hc, hn]; split_ifs <;> omega)
      (by simp only [CircularBuffer.Add, hc, hw]; omega)
    simp only [List.foldl_cons, List.length_cons]
    rw [show k + (xs.length + 1) = k + 1 + xs.length by omega]
    exact h

theorem gridIndex_historyOf (values : List ℚ) :
    gridIndex (historyOf values).view = ((values.length % 128 : Nat) : Int) := by
  have h := foldl_Add_shape values (CircularBuffer.new DATA_STORE_SIZE.toNat) 0
    (by decide) (by decide) (by decide)
  simp only [Nat.zero_add] at h
  change (historyOf values).capacity = 128 ∧ (historyOf values).n = min values.length 128
    ∧ (historyOf values).w = values.length % 128 at h
  obtain ⟨hc, hn, hw⟩ := h
  simp only [gridIndex, CircularBuffer.view, CircularBuffer.GetCount,
    CircularBuffer.GetStartIndex, hc, hn, hw, DATA_STORE_SIZE, SCREEN_WIDTH]
  split_ifs <;> omega

theorem historyOf_append (values : List ℚ) (x : ℚ) :
    historyOf (values ++ [x]) = (historyOf values).Add x := by
  simp [historyOf, List.foldl_append]

/-- The gridline phase of the code for any history: it follows the number of Adds
modulo the capacity 128 and then modulo 40, so an Add moves the gridlines one pixel
to the left modulo 40 unless the number of Adds so far is 127 modulo 128, where they
move seven pixels to the right instead. -/
theorem gridStartX_after_Add (values : List ℚ) (x : ℚ) (offset : Int) :
    (values.length % 128 ≠ 127 →
      (gridStartX ((historyOf values).Add x).view offset
          - (gridStartX (historyOf values).view offset - 1)) % GRID_SPACING_X = 0)
    ∧ (values.length % 128 = 127 →
      gridStartX ((historyOf values).Add x).view offset
        = gridStartX (historyOf values).view offset + 7) := by
  rw [← historyOf_append]
  simp only [gridStartX, gridIndex_historyOf, List.length_append, List.length_singleton,
    GRID_SPACING_X, SCREEN_WIDTH]
  constructor
  · intro h
    rw [Int.tmod_eq_emod (by omega) (by omega), Int.tmod_eq_emod (by omega) (by omega)]
    omega
  · intro h
    rw [Int.tmod_eq_emod (by omega) (by omega), Int.tmod_eq_emod (by omega) (by omega)]
    omega

/-- C6 (the code at the failing input): with 127 samples stored and offset −14 the
vertical gridlines stand at x = 107, 67, 27; the Add that brings the count to 128
puts them at x = 114, 74, 34, seven pixels to the right, while every plotted sample
moves one pixel to the left (startX drops by one).  The same jump happens when the
start index of the full ring wraps from 127 to 0 (here at the 256th Add). -/
theorem C6_gridlines_jump_at_wrap :
    (historyOf (List.replicate 127 50)).GetCount = 127
    ∧ verticalGridXs (gridStartX (historyOf (List.replicate 127 50)).view (-14))
        SCREEN_WIDTH.toNat = [107, 67, 27]
    ∧ verticalGridXs (gridStartX ((historyOf (List.replicate 127 50)).Add 50).view (-14))
        SCREEN_WIDTH.toNat = [114, 74, 34]
    ∧ graphStartX ((historyOf (List.replicate 127 50)).Add 50).view (-14)
        = graphStartX (historyOf (List.replicate 127 50)).view (-14) - 1
    ∧ (historyOf (List.replicate 255 50)).GetStartIndex = 127
    ∧ ((historyOf (List.replicate 255 50)).Add 50).GetStartIndex = 0
    ∧ verticalGridXs (gridStartX (historyOf (List.replicate 255 50)).view (-14))
        SCREEN_WIDTH.toNat = [107, 67, 27]
    ∧ verticalGridXs (gridStartX ((historyOf (List.replicate 255 50)).Add 50).view (-14))
        SCREEN_WIDTH.toNat = [114, 74, 34] := by
  decide!

/-! ## Commits of the sampling loop (C1) -/

theorem countStoredAdd_append (a b : List Event) :
    countStoredAdd (a ++ b) = countStoredAdd a + countStoredAdd b := by
  induction a with
  | nil => simp [countStoredAdd]
  | cons e es ih => cases e <;> simp [countStoredAdd, ih]; omega

theorem countStoredUpdateLast_append (a b : List Event) :
    countStoredUpdateLast (a ++ b) = countStoredUpdateLast a + countStoredUpdateLast b := by
  induction a with
  | nil => simp [countStoredUpdateLast]
  | cons e es ih => cases e <;> simp [countStoredUpdateLast, ih]; omega

theorem countBursts_append (a b : List Event) :
    countBursts (a ++ b) = countBursts a + countBursts b := by
  induction a with
  | nil => simp [countBursts]
  | cons e es ih => cases e <;> simp [countBursts, ih]; omega

theorem countersOf_loop (t : Tick) (s : State) (events : List Event) :
    countersOf (loop t s).1 (events ++ (loop t s).2)
      = if takesReading t s then (countersOf s events).step else countersOf s events := by
  by_cases ht : takesReading t s = true
  · by_cases hb : s.readCount + 1 ≥ ITERATIONS
    · by_cases hc : s.storedDataTimer + 1 ≥ DATA_STORE_INTERVAL
      · simp [loop, completeBurst, ht, hb, hc, countersOf, Counters.step,
          countStoredAdd_append, countStoredUpdateLast_append, countBursts_append,
          countStoredAdd, countStoredUpdateLast, countBursts]
      · simp [loop, completeBurst, ht, hb, hc, countersOf, Counters.step,
          countStoredAdd_append, countStoredUpdateLast_append, countBursts_append,
          countStoredAdd, countStoredUpdateLast, countBursts]
    · simp [loop, ht, hb, countersOf, Counters.step,
        countStoredAdd_append, countStoredUpdateLast_append, countBursts_append,
        countStoredAdd, countStoredUpdateLast, countBursts]
  · simp [loop, ht, countersOf,
      countStoredAdd_append, countStoredUpdateLast_append, countBursts_append,
      countStoredAdd, countStoredUpdateLast, countBursts]

theorem countersOf_run (ts : List Tick) (s : State) (events : List Event) :
    countersOf (run s ts).1 (events ++ (run s ts).2)
      = Counters.step^[readingsTaken s ts] (countersOf s events) := by
  induction ts generalizing s events with
  | nil => simp [run, readingsTaken]
  | cons t ts ih =>
    simp only [run, readingsTaken]
    rw [← List.append_assoc, ih, countersOf_loop]
    by_cases ht : takesReading t s = true
    · simp only [ht, if_true]
      rw [Nat.add_comm, Function.iterate_succ_apply]
    · simp [ht]

theorem counters_after_200 :
    Counters.step^[200] (countersOf (setup initialState) [])
      = { storedDataTimer := 1, readCount := 2, adds := 5, updates := 61, bursts := 66 } := by
  decide!

/-- C1 (as stated, refuted): 200 readings taken after setup() make 66 bursts and
5 calls of storedData.Add, not floor(200/3/16) = 4. -/
theorem C1_four_adds_counterexample :
    readingsTaken (setup initialState) (steadyTicks 200) = 200
    ∧ countBursts (run (setup initialState) (steadyTicks 200)).2 = 66
    ∧ countStoredAdd (run (setup initialState) (steadyTicks 200)).2 = 5
    ∧ 200 / 3 / 16 = 4
    ∧ countStoredAdd (run (setup initialState) (steadyTicks 200)).2 ≠ 200 / 3 / 16 := by
  decide!

/-- C1 (amended): starting from the state left by setup(), any calls of loop() that
take 200 readings in all complete 66 bursts and make exactly 5 calls of
storedData.Add (the first burst commits at once because setup() leaves the timer
above the interval, then every 16th burst does: 5 = floor((66 − 1)/16) + 1); each of
the other 61 bursts reaches storedData through exactly one UpdateLast. -/
theorem C1_adds_after_200_readings (ts : List Tick)
    (h : readingsTaken (setup initialState) ts = 200) :
    countBursts (run (setup initialState) ts).2 = 66
    ∧ countStoredAdd (run (setup initialState) ts).2 = 5
    ∧ countStoredUpdateLast (run (setup initialState) ts).2 = 61
    ∧ 5 = (66 - 1) / 16 + 1 := by
  have hrun := countersOf_run ts (setup initialState) []
  rw [h, counters_after_200, List.nil_append] at hrun
  have hb := congrArg Counters.bursts hrun
  have ha := congrArg Counters.adds hrun
  have hu := congrArg Counters.updates hrun
  exact ⟨hb, ha, hu, by decide⟩

theorem C1_adds_after_200_readings_witness :
    readingsTaken (setup initialState) (steadyTicks 200) = 200
    ∧ countStoredAdd (run (setup initialState) (steadyTicks 200)).2 = 5
    ∧ countStoredUpdateLast (run (setup initialState) (steadyTicks 200)).2 = 61 :=
  have h := C1_adds_after_200_readings (steadyTicks 200) (by decide!)
  ⟨by decide!, h.2.1, h.2.2.1⟩

end CoffeeProbe
